import Mathlib

/-!
Verification development for the ts-serverless data-access core.

The definitions below are a shallow embedding of the TypeScript sources:
* `src/lib/base/entity.ts` — the `Entity` audit/version envelope,
* `src/lib/base/repository.ts` — the policy-enforcing repository facade,
* `src/lib/base/service.ts` — the validation/orchestration service facade,
* `src/lib/query/pagination.ts` and `src/lib/utils/helpers.ts` — pagination,
* `src/lib/errors/base.ts`, `src/lib/errors/domain.ts`,
  `src/lib/errors/handlers.ts`, `src/lib/utils/response.ts` — the error
  taxonomy and the transform/respond pipeline.

Modelling conventions: JS numbers that the code only ever uses as
non-negative integers become `Nat` (with `Int` where negative inputs
matter); `Date` values become abstract `Nat` instants supplied by the
caller, mirroring each `new Date()` site; optional values become `Option`;
a thrown exception becomes `Except`; fresh `nanoid()` / `generateTraceId()`
values are threaded in as explicit parameters.  The JS `metadata` record
of an entity is mutated through an object reference, so it is modelled as
an index into an explicit heap of records; all other entity fields are
rebound per object and are modelled as plain structure fields.
-/

namespace TsServerless

/-- A JS record of metadata entries, modelled as an association list. -/
abbrev MetaRecord : Type := List (String × String)

/-- The heap of metadata records; an object reference is an index. -/
abbrev MetaHeap : Type := List MetaRecord

/-- Read the record behind a reference (a dangling reference reads as empty,
which never arises for entities built by the constructor). -/
def MetaHeap.recordAt (h : MetaHeap) (r : Nat) : MetaRecord :=
  h.getD r []

/-- JS record read `obj[key]`. -/
def MetaRecord.lookupKey (rec : MetaRecord) (k : String) : Option String :=
  match rec with
  | [] => none
  | (k0, v) :: rest => if k0 = k then some v else MetaRecord.lookupKey rest k

/-- JS record write `obj[key] = value`. -/
def MetaRecord.setKey (rec : MetaRecord) (k : String) (v : String) : MetaRecord :=
  (k, v) :: rec.filter (fun p => p.1 ≠ k)

/-- JS record delete `delete obj[key]`. -/
def MetaRecord.deleteKey (rec : MetaRecord) (k : String) : MetaRecord :=
  rec.filter (fun p => p.1 ≠ k)

/-- The `Entity` envelope of `src/lib/base/entity.ts`.  `metadataRef` is the
object reference held by the `metadata` field; timestamps are abstract
instants. -/
structure Entity where
  id : String
  createdAt : Nat
  updatedAt : Nat
  createdBy : Option String
  updatedBy : Option String
  version : Nat
  deletedAt : Option Nat
  metadataRef : Nat
deriving DecidableEq

/-- The `Partial BaseEntity` constructor argument: every field optional. -/
structure EntityData where
  id : Option String := none
  createdAt : Option Nat := none
  updatedAt : Option Nat := none
  createdBy : Option String := none
  updatedBy : Option String := none
  version : Option Nat := none
  deletedAt : Option Nat := none
  metadataRef : Option Nat := none
deriving DecidableEq

/-- JS truthiness of an optional string: `undefined` and the empty string
are falsy. -/
def strTruthy : Option String → Bool
  | none => false
  | some s => s ≠ ""

/-- JS truthiness of an optional number: `undefined` and `0` are falsy. -/
def natTruthy : Option Nat → Bool
  | none => false
  | some n => n ≠ 0

/-- The `Entity` constructor.  Each `data.x || default` falls back on a JS
falsy value; `nanoid()` is the supplied `freshId`, each `new Date()` is the
supplied `now`, and `data.metadata || { }` keeps the caller-supplied record
reference (every JS object is truthy) or allocates a fresh empty record. -/
def createEntity (data : EntityData) (freshId : String) (now : Nat)
    (h : MetaHeap) : Entity × MetaHeap :=
  let e : Entity :=
    { id := if strTruthy data.id then data.id.getD "" else freshId
      createdAt := if natTruthy data.createdAt then data.createdAt.getD 0 else now
      updatedAt := if natTruthy data.updatedAt then data.updatedAt.getD 0 else now
      createdBy := data.createdBy
      updatedBy := data.updatedBy
      version := if natTruthy data.version then data.version.getD 0 else 1
      deletedAt := data.deletedAt
      metadataRef := match data.metadataRef with
        | some r => r
        | none => h.length }
  match data.metadataRef with
  | some _ => (e, h)
  | none => (e, h ++ [[]])

/-- `Entity.isDeleted`. -/
def Entity.isDeleted (e : Entity) : Bool :=
  e.deletedAt.isSome

/-- `Entity.markAsUpdated`: refresh `updatedAt`, optionally set `updatedBy`,
increment `version`. -/
def Entity.markAsUpdated (e : Entity) (userId : Option String) (now : Nat) :
    Entity :=
  { e with
    updatedAt := now
    updatedBy := match userId with
      | some u => some u
      | none => e.updatedBy
    version := e.version + 1 }

/-- `Entity.softDelete`: set `deletedAt = now`, set `updatedBy`, then
`markAsUpdated()` (which is called with no user argument). -/
def Entity.softDelete (e : Entity) (userId : Option String) (now : Nat) :
    Entity :=
  Entity.markAsUpdated { e with deletedAt := some now, updatedBy := userId } none now

/-- `Entity.restore`: clear `deletedAt`, set `updatedBy`, then
`markAsUpdated()`. -/
def Entity.restore (e : Entity) (userId : Option String) (now : Nat) : Entity :=
  Entity.markAsUpdated { e with deletedAt := none, updatedBy := userId } none now

/-- `Entity.addMetadata`: write the key into the referenced record, then
`markAsUpdated()`. -/
def Entity.addMetadata (e : Entity) (k v : String) (now : Nat) (h : MetaHeap) :
    Entity × MetaHeap :=
  (Entity.markAsUpdated e none now,
   h.set e.metadataRef ((h.recordAt e.metadataRef).setKey k v))

/-- `Entity.getMetadata`. -/
def Entity.getMetadata (e : Entity) (h : MetaHeap) (k : String) : Option String :=
  (h.recordAt e.metadataRef).lookupKey k

/-- `Entity.removeMetadata`: the `this.metadata` guard always holds for a
constructor-built entity (the constructor installs a record object), so the
key is deleted and the entity is marked updated. -/
def Entity.removeMetadata (e : Entity) (k : String) (now : Nat) (h : MetaHeap) :
    Entity × MetaHeap :=
  (Entity.markAsUpdated e none now,
   h.set e.metadataRef ((h.recordAt e.metadataRef).deleteKey k))

/-- `Entity.toPlainObject`: every field copied into a plain record; the
metadata field copies the record reference, not the record. -/
def Entity.toPlainObject (e : Entity) : EntityData :=
  { id := some e.id
    createdAt := some e.createdAt
    updatedAt := some e.updatedAt
    createdBy := e.createdBy
    updatedBy := e.updatedBy
    version := some e.version
    deletedAt := e.deletedAt
    metadataRef := some e.metadataRef }

/-- `Entity.clone`: construct a new entity from `toPlainObject()`. -/
def Entity.clone (e : Entity) (freshId : String) (now : Nat) (h : MetaHeap) :
    Entity × MetaHeap :=
  createEntity e.toPlainObject freshId now h

/-- `Entity.equals`: value comparison by id and version. -/
def Entity.equalsE (e other : Entity) : Bool :=
  e.id = other.id && e.version = other.version

/-- The five mutating entity operations, as abstract syntax so that a
sequence of mutations can be folded over an entity. -/
inductive Mutation where
  | markAsUpdated (userId : Option String) (now : Nat)
  | softDelete (userId : Option String) (now : Nat)
  | restore (userId : Option String) (now : Nat)
  | addMetadata (k v : String) (now : Nat)
  | removeMetadata (k : String) (now : Nat)

/-- Apply one mutating operation to an entity and the metadata heap. -/
def applyMutation (m : Mutation) (s : Entity × MetaHeap) : Entity × MetaHeap :=
  match m with
  | .markAsUpdated u now => (s.1.markAsUpdated u now, s.2)
  | .softDelete u now => (s.1.softDelete u now, s.2)
  | .restore u now => (s.1.restore u now, s.2)
  | .addMetadata k v now => s.1.addMetadata k v now s.2
  | .removeMetadata k now => s.1.removeMetadata k now s.2

/-- Apply a sequence of mutating operations in order. -/
def applyMutations (ms : List Mutation) (s : Entity × MetaHeap) :
    Entity × MetaHeap :=
  ms.foldl (fun acc m => applyMutation m acc) s

/-! ## Pagination (`src/lib/utils/helpers.ts`, `src/lib/query/pagination.ts`) -/

/-- `calculateOffset(page, limit) = (page - 1) * limit`. -/
def calculateOffset (page limit : Nat) : Nat :=
  (page - 1) * limit

/-- `calculateTotalPages(total, limit) = Math.ceil(total / limit)`; on
natural inputs with `limit ≥ 1` the real-division ceiling is the natural
ceiling division `(total + limit - 1) / limit`. -/
def calculateTotalPages (total limit : Nat) : Nat :=
  (total + limit - 1) / limit

/-- The record returned by `PaginationHelper.getPaginationMeta`. -/
structure PaginationMeta where
  page : Nat
  limit : Nat
  total : Nat
  totalPages : Nat
  offset : Nat
  hasNext : Bool
  hasPrev : Bool
  isFirstPage : Bool
  isLastPage : Bool
deriving DecidableEq

/-- `PaginationHelper.getPaginationMeta`. -/
def getPaginationMeta (page limit total : Nat) : PaginationMeta :=
  let totalPages := calculateTotalPages total limit
  let offset := calculateOffset page limit
  { page := page
    limit := limit
    total := total
    totalPages := totalPages
    offset := offset
    hasNext := page < totalPages
    hasPrev := 1 < page
    isFirstPage := page = 1
    isLastPage := page = totalPages }

/-- `PaginationOptions` as read by `validatePagination`: JS numbers that may
be absent and may be negative, hence `Option Int`. -/
structure PaginationOptions where
  page : Option Int := none
  limit : Option Int := none
deriving DecidableEq

/-- JS truthiness of an optional number (possibly negative): `undefined`
and `0` are falsy. -/
def intTruthy : Option Int → Bool
  | none => false
  | some n => n ≠ 0

/-- Guard `options.x && options.x < b` of `validatePagination`. -/
def optIntLt (x : Option Int) (b : Int) : Bool :=
  intTruthy x && (x.getD 0) < b

/-- Guard `options.x && options.x > b` of `validatePagination`. -/
def optIntGt (x : Option Int) (b : Int) : Bool :=
  intTruthy x && b < (x.getD 0)

/-- `PaginationHelper.validatePagination`: the three guarded throws in
source order; a throw is an `Except.error` carrying the message. -/
def validatePagination (o : PaginationOptions) : Except String Unit :=
  if optIntLt o.page 1 then
    .error "Page must be greater than 0"
  else if optIntLt o.limit 1 then
    .error "Limit must be greater than 0"
  else if optIntGt o.limit 100 then
    .error "Limit cannot exceed 100"
  else
    .ok ()

/-- The record returned by `createCursorPagination`. -/
structure CursorPage (T : Type) where
  data : List T
  nextCursor : Option String
  hasPrev : Bool

/-- `createCursorPagination`: `hasMore = data.length > limit`;
`items = hasMore ? data.slice(0, -1) : data` (all but the last element);
`nextCursor = hasMore && items.length > 0 ? getCursor(items[items.length - 1])
: undefined`; `hasPrev` is the literal `false`. -/
def createCursorPagination {T : Type} (data : List T) (getCursor : T → String)
    (limit : Nat) : CursorPage T :=
  let hasMore := limit < data.length
  let items := if hasMore then data.dropLast else data
  let nextCursor :=
    if hasMore && 0 < items.length then
      match items.getLast? with
      | some x => some (getCursor x)
      | none => none
    else none
  { data := items, nextCursor := nextCursor, hasPrev := false }

/-! ## Filter model and repository (`src/lib/types.ts`,
`src/lib/base/repository.ts`) -/

/-- A `FilterCondition`: field name, operator (one of the string literals of
`FilterOperator`), optional scalar value, optional value list.  The core
never inspects values, so scalars are carried as strings. -/
structure FilterCondition where
  field : String
  operator : String
  value : Option String := none
  values : Option (List String) := none
deriving DecidableEq

/-- A `FilterCriteria` node: optional condition list, optional logic
(the strings AND and OR), optional nested groups. -/
inductive FilterCriteria where
  | mk (conditions : Option (List FilterCondition)) (logic : Option String)
      (groups : Option (List FilterCriteria))

/-- The condition list of a criteria node. -/
def FilterCriteria.conditions : FilterCriteria → Option (List FilterCondition)
  | .mk c _ _ => c

/-- The logic of a criteria node. -/
def FilterCriteria.logic : FilterCriteria → Option String
  | .mk _ l _ => l

/-- The nested groups of a criteria node. -/
def FilterCriteria.groups : FilterCriteria → Option (List FilterCriteria)
  | .mk _ _ g => g

/-- The empty criteria object literal. -/
def emptyCriteria : FilterCriteria :=
  .mk none none none

/-- The injected soft-delete condition
(field deletedAt, operator isNull). -/
def deleteFilter : FilterCondition :=
  { field := "deletedAt", operator := "isNull" }

/-- `RepositoryConfig` with every policy switch. -/
structure RepositoryConfig where
  softDelete : Bool
  timestamps : Bool
  auditTrail : Bool
  tenantIsolation : Bool
  optimisticLocking : Bool
  caching : Bool
  cacheTtl : Nat
deriving DecidableEq

/-- The defaults installed by the `BaseRepository` constructor. -/
def defaultRepositoryConfig : RepositoryConfig :=
  { softDelete := true
    timestamps := true
    auditTrail := false
    tenantIsolation := false
    optimisticLocking := true
    caching := false
    cacheTtl := 300 }

/-- `FindOptions` restricted to the one field the repository control flow
reads; `withDeleted = false` covers both an absent options object and an
explicit falsy flag, matching the `options?.withDeleted` truthiness test. -/
structure FindOptions where
  withDeleted : Bool := false
deriving DecidableEq

/-- `BaseRepository.applySoftDeleteFilter`: bypass returns
`criteria || { }` unchanged; with no criteria a fresh node holding only the
soft-delete condition is returned; otherwise the condition is appended to
the spread `conditions` list, keeping `logic` and `groups`. -/
def applySoftDeleteFilter (config : RepositoryConfig)
    (criteria : Option FilterCriteria) (options : FindOptions) :
    FilterCriteria :=
  if !config.softDelete || options.withDeleted then
    criteria.getD emptyCriteria
  else
    match criteria with
    | none => .mk (some [deleteFilter]) none none
    | some (.mk conds logic groups) =>
        .mk (some ((conds.getD []) ++ [deleteFilter])) logic groups

/-- `BaseRepository.isDeleted(entity) = Boolean(entity.deletedAt)`. -/
def repoIsDeleted (e : Entity) : Bool :=
  e.deletedAt.isSome

/-- `BaseRepository.findById`: delegate to `executeFindById` with the id and
options only (no filter), then, with soft delete on and `withDeleted` not
set, drop a soft-deleted entity in memory by returning null.  The base
hooks are no-ops and the catch block re-raises unchanged, so the `Except`
value of the primitive passes through. -/
def repoFindById (exec : String → FindOptions → Except String (Option Entity))
    (config : RepositoryConfig) (id : String) (options : FindOptions) :
    Except String (Option Entity) :=
  match exec id options with
  | .error e => .error e
  | .ok none => .ok none
  | .ok (some entity) =>
      if config.softDelete && !options.withDeleted && repoIsDeleted entity then
        .ok none
      else
        .ok (some entity)

/-- `BaseRepository.findMany`: delegate to `executeFindMany` with the
soft-delete-enhanced criteria. -/
def repoFindMany (exec : FilterCriteria → FindOptions → Except String (List Entity))
    (config : RepositoryConfig) (criteria : FilterCriteria)
    (options : FindOptions) : Except String (List Entity) :=
  exec (applySoftDeleteFilter config (some criteria) options) options

/-- `BaseRepository.count`: delegate to `executeCount` with the enhanced
criteria; `applySoftDeleteFilter` is called with no options object, so the
`withDeleted` opt-out is not reachable here. -/
def repoCount (exec : FilterCriteria → Except String Nat)
    (config : RepositoryConfig) (criteria : Option FilterCriteria) :
    Except String Nat :=
  exec (applySoftDeleteFilter config criteria { withDeleted := false })

/-- `ListOptions` restricted to the fields `BaseRepository.list` reads. -/
structure ListOptions where
  page : Option Nat := none
  limit : Option Nat := none
  filter : Option FilterCriteria := none
  withDeleted : Bool := false

/-- `PaginatedResult` as assembled by `BaseRepository.list`. -/
structure PaginatedResult (T : Type) where
  data : List T
  page : Nat
  limit : Nat
  total : Nat
  hasNext : Bool
  hasPrev : Bool

/-- The enhanced criteria `BaseRepository.list` hands to both of its
storage primitives: `options.filter || { }` run through
`applySoftDeleteFilter(criteria, options)`. -/
def repoListCriteria (config : RepositoryConfig) (options : ListOptions) :
    FilterCriteria :=
  applySoftDeleteFilter config (some (options.filter.getD emptyCriteria))
    { withDeleted := options.withDeleted }

/-- `BaseRepository.list`: default `page` and `limit` through `||`
(so `0` falls back too), take `options.filter || { }`, enhance it once, run
the find and the count on the same enhanced criteria, and assemble the
paginated result with `totalPages = Math.ceil(total / limit)`. -/
def repoList (execFindMany : FilterCriteria → ListOptions → Except String (List Entity))
    (execCount : FilterCriteria → Except String Nat)
    (config : RepositoryConfig) (options : ListOptions) :
    Except String (PaginatedResult Entity) :=
  let page := if natTruthy options.page then options.page.getD 0 else 1
  let limit := if natTruthy options.limit then options.limit.getD 0 else 10
  let enhanced := repoListCriteria config options
  match execFindMany enhanced options, execCount enhanced with
  | .ok entities, .ok total =>
      let totalPages := calculateTotalPages total limit
      .ok { data := entities
            page := page
            limit := limit
            total := total
            hasNext := page < totalPages
            hasPrev := 1 < page }
  | .error e, _ => .error e
  | _, .error e => .error e

/-! ## Error taxonomy and handling (`src/lib/errors/base.ts`,
`src/lib/errors/domain.ts`, `src/lib/errors/handlers.ts`,
`src/lib/utils/response.ts`) -/

/-- A validation issue attached to a `ValidationError`. -/
structure ValidationIssue where
  field : String
  message : String
  code : String
deriving DecidableEq

/-- The concrete `BaseError` subclass together with its class-specific
payload; `domainValidationE` extends `ValidationError` and therefore also
answers true to the `instanceof ValidationError` check in
`errorToResponse`. -/
inductive ErrorKind where
  | validationE (issues : List ValidationIssue)
  | domainValidationE (entityType : String) (issues : List ValidationIssue)
  | notFoundE (resource : String) (identifier : Option String)
  | conflictE (conflictType : String)
  | unauthorizedE
  | forbiddenE
  | rateLimitE (retryAfter : Option Nat)
  | internalServerE
  | databaseE (operation : String) (query : Option String)
  | networkE (endpoint method : Option String)
  | businessRuleE (rule : String)
  | concurrencyE (expectedVersion actualVersion : Nat)
  | invariantViolationE (invariant aggregateId aggregateType : String)
  | resourceExhaustedE (resource : String) (limit current : Nat)
  | timeoutE (operation : String) (timeoutMs : Nat)
deriving DecidableEq

/-- A constructed `BaseError` value: kind plus the fields the abstract base
class stores (`code` and `statusCode` are fixed per subclass by its
constructor). -/
structure BaseErrorV where
  kind : ErrorKind
  message : String
  code : String
  statusCode : Nat
  traceId : String
deriving DecidableEq

/-- The `NotFoundError` constructor builds its message from the resource and
optional identifier (ASCII quoting around the identifier elided). -/
def mkNotFoundMessage (resource : String) (identifier : Option String) : String :=
  match identifier with
  | some i => resource ++ " with identifier " ++ i ++ " not found"
  | none => resource ++ " not found"

/-- `new ValidationError(message, issues)`. -/
def mkValidationError (message : String) (issues : List ValidationIssue)
    (traceId : String) : BaseErrorV :=
  ⟨.validationE issues, message, "VALIDATION_ERROR", 400, traceId⟩

/-- `new NotFoundError(resource, identifier)`. -/
def mkNotFoundError (resource : String) (identifier : Option String)
    (traceId : String) : BaseErrorV :=
  ⟨.notFoundE resource identifier, mkNotFoundMessage resource identifier,
   "NOT_FOUND", 404, traceId⟩

/-- `new ConflictError(message, conflictType)`. -/
def mkConflictError (message conflictType : String) (traceId : String) :
    BaseErrorV :=
  ⟨.conflictE conflictType, message, "CONFLICT", 409, traceId⟩

/-- `new UnauthorizedError(message)`. -/
def mkUnauthorizedError (message : String) (traceId : String) : BaseErrorV :=
  ⟨.unauthorizedE, message, "UNAUTHORIZED", 401, traceId⟩

/-- `new ForbiddenError(message)`. -/
def mkForbiddenError (message : String) (traceId : String) : BaseErrorV :=
  ⟨.forbiddenE, message, "FORBIDDEN", 403, traceId⟩

/-- `new RateLimitError(message, retryAfter)`. -/
def mkRateLimitError (message : String) (retryAfter : Option Nat)
    (traceId : String) : BaseErrorV :=
  ⟨.rateLimitE retryAfter, message, "RATE_LIMIT_EXCEEDED", 429, traceId⟩

/-- `new InternalServerError(message)`. -/
def mkInternalServerError (message : String) (traceId : String) : BaseErrorV :=
  ⟨.internalServerE, message, "INTERNAL_SERVER_ERROR", 500, traceId⟩

/-- `new BusinessRuleError(message, rule)`. -/
def mkBusinessRuleError (message rule : String) (traceId : String) :
    BaseErrorV :=
  ⟨.businessRuleE rule, message, "BUSINESS_RULE_ERROR", 422, traceId⟩

/-- `new ConcurrencyError(message, expectedVersion, actualVersion)`. -/
def mkConcurrencyError (message : String) (expectedVersion actualVersion : Nat)
    (traceId : String) : BaseErrorV :=
  ⟨.concurrencyE expectedVersion actualVersion, message,
   "CONCURRENCY_ERROR", 409, traceId⟩

/-- `new InvariantViolationError(message, invariant, aggregateId,
aggregateType)`. -/
def mkInvariantViolationError (message invariant aggregateId aggregateType :
    String) (traceId : String) : BaseErrorV :=
  ⟨.invariantViolationE invariant aggregateId aggregateType, message,
   "INVARIANT_VIOLATION", 422, traceId⟩

/-- `new ResourceExhaustedError(message, resource, limit, current)`. -/
def mkResourceExhaustedError (message resource : String) (limit current : Nat)
    (traceId : String) : BaseErrorV :=
  ⟨.resourceExhaustedE resource limit current, message,
   "RESOURCE_EXHAUSTED", 429, traceId⟩

/-- `new TimeoutError(message, operation, timeoutMs)`. -/
def mkTimeoutError (message operation : String) (timeoutMs : Nat)
    (traceId : String) : BaseErrorV :=
  ⟨.timeoutE operation timeoutMs, message, "TIMEOUT_ERROR", 408, traceId⟩

/-- The `ApiError` record handed to `createErrorResponse` (its `details`
payload is never copied into the response and is omitted here). -/
structure ApiErrorV where
  code : String
  message : String
  traceId : String
deriving DecidableEq

/-- The `ApiResponse` envelope as far as error handling populates it:
`data` is never set on the failure path, `timestamp` is an uninspected
fresh instant and is elided. -/
structure ApiResponseV where
  success : Bool
  error : Option String
  message : Option String
  traceId : String
deriving DecidableEq

/-- `createErrorResponse(error, message?, traceId?)`: a string error is
wrapped as an UNKNOWN_ERROR `ApiError`; the envelope copies
`errorDetails.message` into `error` and `message || errorDetails.message`
into `message` — the `code` field of the `ApiError` is not copied
anywhere.  `freshTrace` stands for a `generateTraceId()` call. -/
def createErrorResponse (error : String ⊕ ApiErrorV) (message : Option String)
    (traceId : Option String) (freshTrace : String) : ApiResponseV :=
  let errorDetails : ApiErrorV :=
    match error with
    | .inl s => { code := "UNKNOWN_ERROR", message := s,
                  traceId := traceId.getD freshTrace }
    | .inr e => e
  { success := false
    error := some errorDetails.message
    message := some (message.getD errorDetails.message)
    traceId := errorDetails.traceId }

/-- `createValidationErrorResponse(issues, traceId?)`. -/
def createValidationErrorResponse (_ : List ValidationIssue)
    (traceId : Option String) (freshTrace : String) : ApiResponseV :=
  createErrorResponse
    (.inr { code := "VALIDATION_ERROR", message := "Validation failed",
            traceId := traceId.getD freshTrace })
    (some "Validation failed") traceId freshTrace

/-- `createNotFoundResponse(resource, identifier?, traceId?)`. -/
def createNotFoundResponse (resource : String) (identifier : Option String)
    (traceId : Option String) (freshTrace : String) : ApiResponseV :=
  let message := mkNotFoundMessage resource identifier
  createErrorResponse
    (.inr { code := "NOT_FOUND", message := message,
            traceId := traceId.getD freshTrace })
    (some message) traceId freshTrace

/-- `createUnauthorizedResponse(message, traceId?)`. -/
def createUnauthorizedResponse (message : String) (traceId : Option String)
    (freshTrace : String) : ApiResponseV :=
  createErrorResponse
    (.inr { code := "UNAUTHORIZED", message := message,
            traceId := traceId.getD freshTrace })
    (some message) traceId freshTrace

/-- `createForbiddenResponse(message, traceId?)`. -/
def createForbiddenResponse (message : String) (traceId : Option String)
    (freshTrace : String) : ApiResponseV :=
  createErrorResponse
    (.inr { code := "FORBIDDEN", message := message,
            traceId := traceId.getD freshTrace })
    (some message) traceId freshTrace

/-- `createConflictResponse(message, traceId?)`. -/
def createConflictResponse (message : String) (traceId : Option String)
    (freshTrace : String) : ApiResponseV :=
  createErrorResponse
    (.inr { code := "CONFLICT", message := message,
            traceId := traceId.getD freshTrace })
    (some message) traceId freshTrace

/-- `createRateLimitResponse(message, retryAfter?, traceId?)` (the
`retryAfter` detail goes into the dropped `details` payload). -/
def createRateLimitResponse (message : String) (_ : Option Nat)
    (traceId : Option String) (freshTrace : String) : ApiResponseV :=
  createErrorResponse
    (.inr { code := "RATE_LIMIT_EXCEEDED", message := message,
            traceId := traceId.getD freshTrace })
    (some message) traceId freshTrace

/-- `createServerErrorResponse(message, traceId?)`. -/
def createServerErrorResponse (message : String) (traceId : Option String)
    (freshTrace : String) : ApiResponseV :=
  createErrorResponse
    (.inr { code := "INTERNAL_SERVER_ERROR", message := message,
            traceId := traceId.getD freshTrace })
    (some message) traceId freshTrace

/-- `shouldExposeMessage`: 4xx status codes only. -/
def shouldExposeMessage (e : BaseErrorV) : Bool :=
  400 ≤ e.statusCode && e.statusCode < 500

/-- The `instanceof ValidationError` test (true for the subclass
`DomainValidationError` as well); used by `errorToResponse`. -/
def isValidationInstance : ErrorKind → Bool
  | .validationE _ => true
  | .domainValidationE _ _ => true
  | _ => false

/-- `errorToResponse`: the six dedicated `instanceof` branches in source
order, then the default server-error branch applying the exposure rule. -/
def errorToResponse (e : BaseErrorV) (freshTrace : String) : ApiResponseV :=
  match e.kind with
  | .validationE issues => createValidationErrorResponse issues (some e.traceId) freshTrace
  | .domainValidationE _ issues => createValidationErrorResponse issues (some e.traceId) freshTrace
  | .notFoundE resource identifier => createNotFoundResponse resource identifier (some e.traceId) freshTrace
  | .unauthorizedE => createUnauthorizedResponse e.message (some e.traceId) freshTrace
  | .forbiddenE => createForbiddenResponse e.message (some e.traceId) freshTrace
  | .conflictE _ => createConflictResponse e.message (some e.traceId) freshTrace
  | .rateLimitE retryAfter => createRateLimitResponse e.message retryAfter (some e.traceId) freshTrace
  | _ =>
      let message := if shouldExposeMessage e then e.message else "Internal server error"
      createServerErrorResponse message (some e.traceId) freshTrace

/-- A thrown JS value as `transformToBaseError` discriminates it: a taxonomy
`BaseError`, a plain `Error` (carrying a message), a string, or anything
else. -/
inductive Thrown where
  | base (e : BaseErrorV)
  | jsError (message : String)
  | str (s : String)
  | other

/-- `transformToBaseError(error, context?)` with no context supplied, so the
coerced `InternalServerError` draws a fresh trace id. -/
def transformToBaseError (t : Thrown) (freshTrace : String) : BaseErrorV :=
  match t with
  | .base e => e
  | .jsError m => mkInternalServerError m freshTrace
  | .str s => mkInternalServerError s freshTrace
  | .other => mkInternalServerError "An unknown error occurred" freshTrace

/-- `handleError`: transform, log (a pure no-op on the response value), and
convert to the response envelope. -/
def handleError (t : Thrown) (freshTrace : String) : ApiResponseV :=
  errorToResponse (transformToBaseError t freshTrace) freshTrace

/-! ## Service (`src/lib/base/service.ts`) -/

/-- `ServiceConfig` with the defaults installed by the `BaseService`
constructor. -/
structure ServiceConfig where
  validation : Bool := true
  events : Bool := false
  auditTrail : Bool := false
  caching : Bool := false
  retries : Nat := 0
deriving DecidableEq

/-- The observable steps of a service operation, for stating ordering. -/
inductive ServiceEvent where
  | beforeHook
  | validateHook
  | repoMutation
  | afterHook
  | errorHook
deriving DecidableEq

/-- `BaseService.create` for a given input, instrumented with the list of
steps it performs in order.  The before/after hooks are base-class no-ops;
`validate` is the outcome of `validateCreate(data)` and `repoCreate` the
outcome of `repository.create(data)`; the catch block runs the error hook
and re-raises the failure unchanged. -/
def serviceCreate {α ε β : Type} (config : ServiceConfig)
    (validate : α → Except ε Unit) (repoCreate : α → Except ε β) (data : α) :
    Except ε β × List ServiceEvent :=
  if config.validation then
    match validate data with
    | .error e =>
        (.error e, [.beforeHook, .validateHook, .errorHook])
    | .ok _ =>
        match repoCreate data with
        | .error e =>
            (.error e, [.beforeHook, .validateHook, .repoMutation, .errorHook])
        | .ok b =>
            (.ok b, [.beforeHook, .validateHook, .repoMutation, .afterHook])
  else
    match repoCreate data with
    | .error e => (.error e, [.beforeHook, .repoMutation, .errorHook])
    | .ok b => (.ok b, [.beforeHook, .repoMutation, .afterHook])

/-- `BaseService.update` for a given id and input, instrumented like
`serviceCreate`; `validate` is `validateUpdate(id, data)` and `repoUpdate`
is `repository.update(id, data)`. -/
def serviceUpdate {α ε β : Type} (config : ServiceConfig)
    (validate : String → α → Except ε Unit)
    (repoUpdate : String → α → Except ε β) (id : String) (data : α) :
    Except ε β × List ServiceEvent :=
  if config.validation then
    match validate id data with
    | .error e =>
        (.error e, [.beforeHook, .validateHook, .errorHook])
    | .ok _ =>
        match repoUpdate id data with
        | .error e =>
            (.error e, [.beforeHook, .validateHook, .repoMutation, .errorHook])
        | .ok b =>
            (.ok b, [.beforeHook, .validateHook, .repoMutation, .afterHook])
  else
    match repoUpdate id data with
    | .error e => (.error e, [.beforeHook, .repoMutation, .errorHook])
    | .ok b => (.ok b, [.beforeHook, .repoMutation, .afterHook])

/-! ## Theorems -/

/-- Each of the five mutating entity operations goes through
`markAsUpdated` exactly once and therefore bumps `version` by exactly 1. -/
theorem applyMutation_version (m : Mutation) (s : Entity × MetaHeap) :
    (applyMutation m s).1.version = s.1.version + 1 := by
  cases m <;>
    simp [applyMutation, Entity.markAsUpdated, Entity.softDelete,
      Entity.restore, Entity.addMetadata, Entity.removeMetadata]

/-- Folding a mutation sequence adds its length to the version. -/
theorem applyMutations_version (ms : List Mutation) (s : Entity × MetaHeap) :
    (applyMutations ms s).1.version = s.1.version + ms.length := by
  induction ms generalizing s with
  | nil => simp [applyMutations]
  | cons m rest ih =>
      have h1 : applyMutations (m :: rest) s
          = applyMutations rest (applyMutation m s) := by
        simp [applyMutations]
      rw [h1, ih, applyMutation_version]
      simp only [List.length_cons]
      omega

/-- C2: an entity constructed without a caller-supplied version starts at
version 1, every mutating operation (markAsUpdated, softDelete, restore,
addMetadata, removeMetadata) increments the version by exactly 1, and hence
after any sequence of N mutations the version is 1 + N; in particular the
version never decreases or resets. -/
theorem entity_version_lifecycle
    (data : EntityData) (freshId : String) (now : Nat) (h : MetaHeap)
    (hv : data.version = none) :
    (createEntity data freshId now h).1.version = 1 ∧
    (∀ (m : Mutation) (s : Entity × MetaHeap),
      (applyMutation m s).1.version = s.1.version + 1) ∧
    ∀ (ms : List Mutation),
      (applyMutations ms (createEntity data freshId now h)).1.version
        = 1 + ms.length := by
  have hstart : (createEntity data freshId now h).1.version = 1 := by
    simp only [createEntity, hv, natTruthy]
    cases data.metadataRef <;> simp
  refine ⟨hstart, applyMutation_version, fun ms => ?_⟩
  rw [applyMutations_version, hstart]

/-- Witness for C2 at a concrete creation and mutation sequence. -/
theorem entity_version_lifecycle_witness :
    ({ } : EntityData).version = none ∧
    ((createEntity { } "e1" 0 []).1.version = 1 ∧
     (∀ (m : Mutation) (s : Entity × MetaHeap),
       (applyMutation m s).1.version = s.1.version + 1) ∧
     ∀ (ms : List Mutation),
       (applyMutations ms (createEntity { } "e1" 0 [])).1.version
         = 1 + ms.length) :=
  ⟨rfl, entity_version_lifecycle { } "e1" 0 [] rfl⟩

/-- C7: softDelete followed by restore clears the soft-delete marker
(deletedAt is null and isDeleted reports false), leaves the id unchanged,
and bumps the version by exactly 2 over its pre-softDelete value. -/
theorem softDelete_restore_roundtrip (e : Entity) (u1 u2 : Option String)
    (t1 t2 : Nat) :
    ((e.softDelete u1 t1).restore u2 t2).deletedAt = none ∧
    ((e.softDelete u1 t1).restore u2 t2).isDeleted = false ∧
    ((e.softDelete u1 t1).restore u2 t2).id = e.id ∧
    ((e.softDelete u1 t1).restore u2 t2).version = e.version + 2 := by
  simp [Entity.softDelete, Entity.restore, Entity.markAsUpdated,
    Entity.isDeleted]

/-- The ceiling division computed by `calculateTotalPages` is the least
bound: `total ≤ totalPages * limit < total + limit` when `limit ≥ 1`. -/
theorem calculateTotalPages_bounds (total limit : Nat) (hL : 1 ≤ limit) :
    total ≤ calculateTotalPages total limit * limit ∧
    calculateTotalPages total limit * limit < total + limit := by
  unfold calculateTotalPages
  have hdm := Nat.div_add_mod (total + limit - 1) limit
  have hmod : (total + limit - 1) % limit < limit :=
    Nat.mod_lt _ (by omega)
  have hcomm : (total + limit - 1) / limit * limit
      = limit * ((total + limit - 1) / limit) := Nat.mul_comm _ _
  rw [hcomm]
  set q := limit * ((total + limit - 1) / limit) with hq
  omega

/-- C4: for every total T, limit L ≥ 1 and page P ≥ 1, the offset helpers
compute offset = (P - 1) * L, totalPages as the ceiling of T / L
(characterised by T ≤ totalPages * L < T + L), hasNext = (P < totalPages)
and hasPrev = (P > 1); and for every page P up to totalPages, hasNext is
equivalent to P * L < T. -/
theorem getPaginationMeta_spec (T L P : Nat) (hL : 1 ≤ L) (hP : 1 ≤ P) :
    (getPaginationMeta P L T).offset = (P - 1) * L ∧
    (getPaginationMeta P L T).totalPages = calculateTotalPages T L ∧
    T ≤ (getPaginationMeta P L T).totalPages * L ∧
    (getPaginationMeta P L T).totalPages * L < T + L ∧
    (getPaginationMeta P L T).hasNext
      = decide (P < (getPaginationMeta P L T).totalPages) ∧
    (getPaginationMeta P L T).hasPrev = decide (1 < P) ∧
    (P ≤ (getPaginationMeta P L T).totalPages →
      ((getPaginationMeta P L T).hasNext = true ↔ P * L < T)) := by
  obtain ⟨hlo, hhi⟩ := calculateTotalPages_bounds T L hL
  refine ⟨rfl, rfl, hlo, hhi, rfl, rfl, fun _ => ?_⟩
  show decide (P < calculateTotalPages T L) = true ↔ P * L < T
  rw [decide_eq_true_eq]
  constructor
  · intro hlt
    have h1 : P + 1 ≤ calculateTotalPages T L := hlt
    have h2 : (P + 1) * L ≤ calculateTotalPages T L * L :=
      Nat.mul_le_mul_right L h1
    have h3 : (P + 1) * L = P * L + L := by ring
    omega
  · intro hlt
    have h1 : P * L < calculateTotalPages T L * L := by omega
    exact Nat.lt_of_mul_lt_mul_right h1

/-- Witness for C4 at total 25, limit 10, page 1. -/
theorem getPaginationMeta_spec_witness :
    1 ≤ 10 ∧ 1 ≤ 1 ∧ 1 ≤ (getPaginationMeta 1 10 25).totalPages ∧
    ((getPaginationMeta 1 10 25).hasNext = true ↔ 1 * 10 < 25) :=
  ⟨by decide, by decide, by decide,
   (getPaginationMeta_spec 25 10 1 (by decide) (by decide)).2.2.2.2.2.2
     (by decide)⟩

/-- C5: given the over-fetched candidate list, createCursorPagination with
exactly L + 1 candidates (L ≥ 1) keeps the first L items and derives
nextCursor by applying the caller-supplied cursor function to the last
retained item; with at most L candidates it keeps them all and reports no
nextCursor; hasPrev is reported false in every case. -/
theorem createCursorPagination_spec {T : Type} (data : List T)
    (getCursor : T → String) (limit : Nat) :
    (data.length = limit + 1 → 1 ≤ limit →
      (createCursorPagination data getCursor limit).data = data.take limit ∧
      (createCursorPagination data getCursor limit).data.length = limit ∧
      (createCursorPagination data getCursor limit).nextCursor
        = ((createCursorPagination data getCursor limit).data.getLast?).map
            getCursor ∧
      ((createCursorPagination data getCursor limit).data.getLast?).isSome
        = true) ∧
    (data.length ≤ limit →
      (createCursorPagination data getCursor limit).data = data ∧
      (createCursorPagination data getCursor limit).nextCursor = none) ∧
    (createCursorPagination data getCursor limit).hasPrev = false := by
  refine ⟨fun h1 h2 => ?_, fun hle => ?_, rfl⟩
  · have hm : limit < data.length := by omega
    have hlen : data.dropLast.length = limit := by
      simp [List.length_dropLast, h1]
    have hne : data.dropLast ≠ [] := by
      intro hnil
      rw [hnil] at hlen
      simp at hlen
      omega
    obtain ⟨x, hx⟩ : ∃ x, data.dropLast.getLast? = some x := by
      cases hgl : data.dropLast.getLast? with
      | none => exact absurd (List.getLast?_eq_none_iff.mp hgl) hne
      | some x => exact ⟨x, rfl⟩
    have hdata : (createCursorPagination data getCursor limit).data
        = data.dropLast := by
      simp [createCursorPagination, hm]
    have htake : data.dropLast = data.take limit := by
      rw [List.dropLast_eq_take, h1]
      simp
    refine ⟨hdata ▸ htake, by rw [hdata, hlen], ?_, by rw [hdata, hx]; rfl⟩
    rw [hdata, hx]
    simp [createCursorPagination, hm, hx, hlen]
    omega
  · have hm : ¬ limit < data.length := by omega
    constructor
    · simp [createCursorPagination, hm]
    · simp [createCursorPagination, hm]

/-- Witness for C5: three candidates with limit 2 keep the first two and
cursor the second; one candidate with limit 2 is returned whole with no
cursor. -/
theorem createCursorPagination_spec_witness :
    ((["a", "b", "c"] : List String).length = 2 + 1 ∧ 1 ≤ 2 ∧
      ((createCursorPagination ["a", "b", "c"] (fun s => s) 2).data
          = (["a", "b", "c"] : List String).take 2 ∧
        (createCursorPagination ["a", "b", "c"] (fun s => s) 2).data.length
          = 2 ∧
        (createCursorPagination ["a", "b", "c"] (fun s => s) 2).nextCursor
          = ((createCursorPagination ["a", "b", "c"] (fun s => s) 2).data.getLast?).map
              (fun s => s) ∧
        ((createCursorPagination ["a", "b", "c"] (fun s => s) 2).data.getLast?).isSome
          = true)) ∧
    ((["z"] : List String).length ≤ 2 ∧
      ((createCursorPagination ["z"] (fun s => s) 2).data = ["z"] ∧
        (createCursorPagination ["z"] (fun s => s) 2).nextCursor = none)) :=
  ⟨⟨rfl, by decide,
    (createCursorPagination_spec ["a", "b", "c"] (fun s => s) 2).1 rfl
      (by decide)⟩,
   ⟨by decide,
    (createCursorPagination_spec ["z"] (fun s => s) 2).2.1 (by decide)⟩⟩

/-- C6 counterexample: the claim demands a throw for every page below 1,
but page 0 is falsy in JS, so the guard is skipped and validation
succeeds. -/
theorem validatePagination_page_zero_counterexample :
    validatePagination { page := some 0, limit := some 10 } = .ok () ∧
    (0 : Int) < 1 := by
  exact ⟨rfl, by decide⟩

/-- C6 amended: validatePagination throws Page must be greater than 0 for
truthy pages below 1 (negative pages), throws Limit must be greater than 0
for truthy limits below 1, throws Limit cannot exceed 100 for limits above
100, and accepts page ≥ 1 with 1 ≤ limit ≤ 100; but a zero page or zero
limit is falsy and skips its guard, so options with page = 0 or limit = 0
are accepted. -/
theorem validatePagination_guards (p l : Int) (po : Option Int) :
    (p ≠ 0 → p < 1 →
      validatePagination { page := some p, limit := some l } =
        .error "Page must be greater than 0") ∧
    (optIntLt po 1 = false → l ≠ 0 → l < 1 →
      validatePagination { page := po, limit := some l } =
        .error "Limit must be greater than 0") ∧
    (optIntLt po 1 = false → 100 < l →
      validatePagination { page := po, limit := some l } =
        .error "Limit cannot exceed 100") ∧
    (1 ≤ p → 1 ≤ l → l ≤ 100 →
      validatePagination { page := some p, limit := some l } = .ok ()) ∧
    validatePagination { page := some 0, limit := some 0 } = .ok () := by
  refine ⟨fun hp0 hp1 => ?_, fun hpo hl0 hl1 => ?_, fun hpo hl => ?_,
    fun hp hl1 hl2 => ?_, rfl⟩
  · simp [validatePagination, optIntLt, intTruthy, hp0, hp1]
  · have h2 : optIntLt (some l) 1 = true := by
      simp [optIntLt, intTruthy, hl0, hl1]
    simp [validatePagination, hpo, h2]
  · have hl1 : ¬ l < 1 := by omega
    have h2 : optIntLt (some l) 1 = false := by
      simp [optIntLt, intTruthy, hl1]
    have h3 : optIntGt (some l) 100 = true := by
      have hl0 : l ≠ 0 := by omega
      simp [optIntGt, intTruthy, hl0, hl]
    simp [validatePagination, hpo, h2, h3]
  · have h1 : optIntLt (some p) 1 = false := by
      simp [optIntLt, intTruthy]
      omega
    have h2 : optIntLt (some l) 1 = false := by
      simp [optIntLt, intTruthy]
      omega
    have h3 : optIntGt (some l) 100 = false := by
      simp [optIntGt, intTruthy]
      omega
    simp [validatePagination, h1, h2, h3]

/-- Witness for C6 amended, one concrete input per guard. -/
theorem validatePagination_guards_witness :
    (validatePagination { page := some (-1), limit := some 10 } =
      .error "Page must be greater than 0") ∧
    (validatePagination { page := some 2, limit := some (-2) } =
      .error "Limit must be greater than 0") ∧
    (validatePagination { page := some 2, limit := some 101 } =
      .error "Limit cannot exceed 100") ∧
    (validatePagination { page := some 2, limit := some 100 } = .ok ()) ∧
    validatePagination { page := some 0, limit := some 0 } = .ok () :=
  ⟨(validatePagination_guards (-1) 10 none).1 (by decide) (by decide),
   (validatePagination_guards 2 (-2) (some 2)).2.1 (by decide) (by decide)
     (by decide),
   (validatePagination_guards 2 101 (some 2)).2.2.1 (by decide) (by decide),
   (validatePagination_guards 2 100 none).2.2.2.1 (by decide) (by decide)
     (by decide),
   (validatePagination_guards 2 100 none).2.2.2.2⟩

/-- C3 counterexample: handling a plain Error yields the generic message in
the error field of the envelope; the claimed code INTERNAL_SERVER_ERROR
appears in no field of the response. -/
theorem handleError_nonTaxonomy_code_counterexample :
    (handleError (.jsError "boom") "t0").success = false ∧
    (handleError (.jsError "boom") "t0").error
      = some "Internal server error" ∧
    (handleError (.jsError "boom") "t0").error
      ≠ some "INTERNAL_SERVER_ERROR" ∧
    (handleError (.jsError "boom") "t0").message
      ≠ some "INTERNAL_SERVER_ERROR" := by
  refine ⟨rfl, rfl, by decide, by decide⟩

/-- C3 amended: for every non-taxonomy failure (plain Error, string, or any
other value), handleError produces success = false with the generic phrase
Internal server error in both the error and message fields, independent of
the original failure, so the original message never appears; the coercion
builds an InternalServerError whose code INTERNAL_SERVER_ERROR is dropped
by createErrorResponse and is not part of the envelope. -/
theorem handleError_nonTaxonomy_generic (m fresh : String) :
    handleError (.jsError m) fresh =
      { success := false, error := some "Internal server error",
        message := some "Internal server error", traceId := fresh } ∧
    handleError (.str m) fresh =
      { success := false, error := some "Internal server error",
        message := some "Internal server error", traceId := fresh } ∧
    handleError .other fresh =
      { success := false, error := some "Internal server error",
        message := some "Internal server error", traceId := fresh } := by
  refine ⟨?_, ?_, ?_⟩ <;>
    simp [handleError, transformToBaseError, mkInternalServerError,
      errorToResponse, shouldExposeMessage, createServerErrorResponse,
      createErrorResponse]

/-- C10 counterexample: a BusinessRuleError response carries the original
message, not the claimed INTERNAL_SERVER_ERROR code, in its error field. -/
theorem handleError_businessRule_code_counterexample :
    (handleError (.base (mkBusinessRuleError "rule violated" "r1" "t1")) "t0").error
      = some "rule violated" ∧
    (handleError (.base (mkBusinessRuleError "rule violated" "r1" "t1")) "t0").error
      ≠ some "INTERNAL_SERVER_ERROR" ∧
    (handleError (.base (mkBusinessRuleError "rule violated" "r1" "t1")) "t0").message
      ≠ some "INTERNAL_SERVER_ERROR" := by
  refine ⟨rfl, by decide, by decide⟩

/-- C10 amended: each taxonomy error with a 4xx statusCode and no dedicated
branch in errorToResponse (BusinessRuleError 422, ConcurrencyError 409,
TimeoutError 408, ResourceExhaustedError 429, InvariantViolationError 422)
falls to the default server-error branch, which exposes the original
message verbatim in both the error and message fields of the envelope; the
branch builds an ApiError coded INTERNAL_SERVER_ERROR instead of the error
kind of its own, but createErrorResponse drops the code, so neither code
reaches the response. -/
theorem handleError_undedicated_4xx
    (msg rule inv aggId aggT op res t0 fresh : String)
    (expectedV actualV lim current timeoutMs : Nat) :
    handleError (.base (mkBusinessRuleError msg rule t0)) fresh =
      { success := false, error := some msg, message := some msg,
        traceId := t0 } ∧
    handleError (.base (mkConcurrencyError msg expectedV actualV t0)) fresh =
      { success := false, error := some msg, message := some msg,
        traceId := t0 } ∧
    handleError (.base (mkTimeoutError msg op timeoutMs t0)) fresh =
      { success := false, error := some msg, message := some msg,
        traceId := t0 } ∧
    handleError (.base (mkResourceExhaustedError msg res lim current t0)) fresh =
      { success := false, error := some msg, message := some msg,
        traceId := t0 } ∧
    handleError (.base (mkInvariantViolationError msg inv aggId aggT t0)) fresh =
      { success := false, error := some msg, message := some msg,
        traceId := t0 } := by
  refine ⟨?_, ?_, ?_, ?_, ?_⟩ <;>
    simp [handleError, transformToBaseError, mkBusinessRuleError,
      mkConcurrencyError, mkTimeoutError, mkResourceExhaustedError,
      mkInvariantViolationError, errorToResponse, shouldExposeMessage,
      createServerErrorResponse, createErrorResponse]

/-- C9: with the validation config flag enabled, the service create and
update run the validation hook strictly before the repository mutation:
when the hook raises, the repository step never occurs and the raised
error is the result; and whenever the repository mutation step occurs in
the event trace, the validation hook occurs at an earlier position. -/
theorem service_validation_precedes_mutation {α ε β : Type}
    (config : ServiceConfig) (hv : config.validation = true)
    (validateC : α → Except ε Unit) (repoCreate : α → Except ε β)
    (validateU : String → α → Except ε Unit)
    (repoUpdate : String → α → Except ε β) (id : String) (data : α) :
    (∀ e, validateC data = .error e →
      (serviceCreate config validateC repoCreate data).1 = .error e ∧
      ServiceEvent.repoMutation ∉
        (serviceCreate config validateC repoCreate data).2) ∧
    (ServiceEvent.repoMutation ∈
        (serviceCreate config validateC repoCreate data).2 →
      (serviceCreate config validateC repoCreate data).2.indexOf
          ServiceEvent.validateHook <
        (serviceCreate config validateC repoCreate data).2.indexOf
          ServiceEvent.repoMutation) ∧
    (∀ e, validateU id data = .error e →
      (serviceUpdate config validateU repoUpdate id data).1 = .error e ∧
      ServiceEvent.repoMutation ∉
        (serviceUpdate config validateU repoUpdate id data).2) ∧
    (ServiceEvent.repoMutation ∈
        (serviceUpdate config validateU repoUpdate id data).2 →
      (serviceUpdate config validateU repoUpdate id data).2.indexOf
          ServiceEvent.validateHook <
        (serviceUpdate config validateU repoUpdate id data).2.indexOf
          ServiceEvent.repoMutation) := by
  refine ⟨fun e he => ?_, ?_, fun e he => ?_, ?_⟩
  · constructor
    · simp [serviceCreate, hv, he]
    · simp [serviceCreate, hv, he]
  · cases hc : validateC data with
    | error e => simp [serviceCreate, hv, hc]
    | ok u =>
        cases hr : repoCreate data with
        | error er => simp [serviceCreate, hv, hc, hr]
        | ok b => simp [serviceCreate, hv, hc, hr]
  · constructor
    · simp [serviceUpdate, hv, he]
    · simp [serviceUpdate, hv, he]
  · cases hc : validateU id data with
    | error e => simp [serviceUpdate, hv, hc]
    | ok u =>
        cases hr : repoUpdate id data with
        | error er => simp [serviceUpdate, hv, hc, hr]
        | ok b => simp [serviceUpdate, hv, hc, hr]

/-- Witness for C9 at a concrete service whose validation hook rejects. -/
theorem service_validation_precedes_mutation_witness :
    ({ } : ServiceConfig).validation = true ∧
    ((serviceCreate { } (fun _ : Nat => Except.error "invalid")
        (fun _ : Nat => Except.ok (7 : Nat)) 0).1 = .error "invalid" ∧
      ServiceEvent.repoMutation ∉
        (serviceCreate { } (fun _ : Nat => Except.error "invalid")
          (fun _ : Nat => Except.ok (7 : Nat)) 0).2) :=
  ⟨rfl,
   (service_validation_precedes_mutation { } rfl
      (fun _ : Nat => Except.error "invalid")
      (fun _ : Nat => Except.ok (7 : Nat))
      (fun _ (_ : Nat) => Except.error "invalid")
      (fun _ (_ : Nat) => Except.ok (7 : Nat)) "id" 0).1 "invalid" rfl⟩

/-- A storage stub whose find-by-id primitive returns a soft-deleted
entity, used to observe where the soft-delete filtering happens. -/
def deletedProbe : Entity :=
  { id := "e1", createdAt := 0, updatedAt := 0, createdBy := none,
    updatedBy := none, version := 1, deletedAt := some 5, metadataRef := 0 }

/-- The stubbed `executeFindById` primitive: it receives no filter at all
(its signature takes only the id and the options) and returns the
soft-deleted probe entity. -/
def execReturnsDeleted : String → FindOptions → Except String (Option Entity) :=
  fun _ _ => .ok (some deletedProbe)

/-- C1 counterexample: with soft delete enabled and withDeleted unset,
findById does not delegate a deletedAt-isNull filter to its storage
primitive — the primitive takes no filter and here returns a soft-deleted
entity — and findById then drops that entity in memory, so its result
differs from what the storage layer returned. -/
theorem findById_memory_filter_counterexample :
    repoFindById execReturnsDeleted defaultRepositoryConfig "e1"
      { withDeleted := false } = .ok none ∧
    execReturnsDeleted "e1" { withDeleted := false }
      = .ok (some deletedProbe) ∧
    repoFindById execReturnsDeleted defaultRepositoryConfig "e1"
        { withDeleted := false }
      ≠ execReturnsDeleted "e1" { withDeleted := false } := by
  refine ⟨rfl, rfl, ?_⟩
  intro hc
  simp [repoFindById, execReturnsDeleted, repoIsDeleted, deletedProbe,
    defaultRepositoryConfig] at hc

/-- C1 amended: with soft delete enabled and withDeleted unset, findMany,
count and list delegate to their storage primitives with the caller filter
whose top-level conditions list has the deletedAt-isNull condition
appended (the list is combined under the criteria logic, AND by default,
and logic and groups are preserved); findById instead delegates only the
id and options and drops a returned soft-deleted entity in memory; with
withDeleted set, or soft delete disabled, the caller filter is passed
through unmodified. -/
theorem softDelete_read_paths (config : RepositoryConfig)
    (c : FilterCriteria) (co : Option FilterCriteria) (options : FindOptions)
    (lo : ListOptions) (hsd : config.softDelete = true) :
    (options.withDeleted = false →
      deleteFilter ∈
        (applySoftDeleteFilter config co options).conditions.getD [] ∧
      (applySoftDeleteFilter config (some c) options).logic = c.logic ∧
      (applySoftDeleteFilter config (some c) options).groups = c.groups) ∧
    (options.withDeleted = true →
      applySoftDeleteFilter config (some c) options = c) ∧
    (∀ cfg2 : RepositoryConfig, cfg2.softDelete = false →
      applySoftDeleteFilter cfg2 (some c) options = c) ∧
    (∀ exec : FilterCriteria → FindOptions → Except String (List Entity),
      repoFindMany exec config c options
        = exec (applySoftDeleteFilter config (some c) options) options) ∧
    (∀ exec : FilterCriteria → Except String Nat,
      repoCount exec config co
        = exec (applySoftDeleteFilter config co { withDeleted := false })) ∧
    (lo.withDeleted = false →
      deleteFilter ∈ (repoListCriteria config lo).conditions.getD []) ∧
    (∀ (exec : String → FindOptions → Except String (Option Entity))
        (id : String) (ent : Entity),
      options.withDeleted = false → exec id options = .ok (some ent) →
      ent.deletedAt.isSome = true →
      repoFindById exec config id options = .ok none) := by
  refine ⟨fun hwd => ⟨?_, ?_, ?_⟩, fun hwd => ?_, fun cfg2 h2 => ?_,
    fun exec => rfl, fun exec => rfl, fun hwd => ?_,
    fun exec id ent hwd hx hdel => ?_⟩
  · cases co with
    | none => simp [applySoftDeleteFilter, hsd, hwd, FilterCriteria.conditions]
    | some cc =>
        cases cc with
        | mk conds logic groups =>
            simp [applySoftDeleteFilter, hsd, hwd, FilterCriteria.conditions]
  · cases c with
    | mk conds logic groups =>
        simp [applySoftDeleteFilter, hsd, hwd, FilterCriteria.logic]
  · cases c with
    | mk conds logic groups =>
        simp [applySoftDeleteFilter, hsd, hwd, FilterCriteria.groups]
  · cases c with
    | mk conds logic groups => simp [applySoftDeleteFilter, hsd, hwd]
  · cases c with
    | mk conds logic groups => simp [applySoftDeleteFilter, h2]
  · cases hfc : lo.filter.getD emptyCriteria with
    | mk conds logic groups =>
        simp [repoListCriteria, applySoftDeleteFilter, hsd, hwd, hfc,
          FilterCriteria.conditions]
  · simp [repoFindById, hx, repoIsDeleted, hsd, hwd, hdel]

/-- Witness for C1 amended at the default configuration. -/
theorem softDelete_read_paths_witness :
    defaultRepositoryConfig.softDelete = true ∧
    (deleteFilter ∈
        (applySoftDeleteFilter defaultRepositoryConfig none
          { withDeleted := false }).conditions.getD [] ∧
      (applySoftDeleteFilter defaultRepositoryConfig (some emptyCriteria)
          { withDeleted := false }).logic = emptyCriteria.logic ∧
      (applySoftDeleteFilter defaultRepositoryConfig (some emptyCriteria)
          { withDeleted := false }).groups = emptyCriteria.groups) ∧
    applySoftDeleteFilter defaultRepositoryConfig (some emptyCriteria)
      { withDeleted := true } = emptyCriteria ∧
    repoFindById execReturnsDeleted defaultRepositoryConfig "e1"
      { withDeleted := false } = .ok none :=
  ⟨rfl,
   (softDelete_read_paths defaultRepositoryConfig emptyCriteria none
      { withDeleted := false } { } rfl).1 rfl,
   (softDelete_read_paths defaultRepositoryConfig emptyCriteria none
      { withDeleted := true } { } rfl).2.1 rfl,
   (softDelete_read_paths defaultRepositoryConfig emptyCriteria none
      { withDeleted := false } { } rfl).2.2.2.2.2.2 execReturnsDeleted "e1"
      deletedProbe rfl rfl rfl⟩

/-- Setting an index that is in range makes `recordAt` read the new
record. -/
theorem MetaHeap.recordAt_set (h : MetaHeap) (r : Nat) (rec : MetaRecord)
    (hr : r < h.length) : MetaHeap.recordAt (h.set r rec) r = rec := by
  induction h generalizing r with
  | nil => simp at hr
  | cons a t ih =>
      cases r with
      | zero => simp [MetaHeap.recordAt]
      | succ n =>
          have hn : n < t.length := by
            simp at hr
            omega
          have := ih n hn
          simpa [MetaHeap.recordAt] using this

/-- Writing a key into a record makes the lookup of that key return the
written value. -/
theorem MetaRecord.lookupKey_setKey (rec : MetaRecord) (k v : String) :
    (rec.setKey k v).lookupKey k = some v := by
  simp [MetaRecord.setKey, MetaRecord.lookupKey]

/-- The metadata heap after a probe entity clone is mutated. -/
def probeEntity : Entity :=
  { id := "p1", createdAt := 0, updatedAt := 0, createdBy := none,
    updatedBy := none, version := 1, deletedAt := none, metadataRef := 0 }

/-- The heap holding the probe entity metadata record. -/
def probeHeap : MetaHeap := [[]]

/-- C8 counterexample: adding metadata to the clone of the probe entity is
observable through the original entity, whose getMetadata changes from
none to the added value, so the clone is not reference-independent. -/
theorem clone_reference_counterexample :
    probeEntity.getMetadata
      ((probeEntity.clone "fresh" 3 probeHeap).1.addMetadata "k" "v" 4
        (probeEntity.clone "fresh" 3 probeHeap).2).2 "k" = some "v" ∧
    probeEntity.getMetadata probeHeap "k" = none ∧
    (probeEntity.clone "fresh" 3 probeHeap).1.equalsE probeEntity = true := by
  decide

/-- C8 amended: for a constructor-built entity (non-empty id, non-zero
version, valid metadata reference), clone allocates nothing and returns a
value-equal copy (equals holds: same id and same version), and scalar
fields such as version stay independent because the clone is a fresh
object; but the metadata record is shared by reference, so addMetadata
through the clone is observable from the original and vice versa. -/
theorem clone_value_equal_shares_metadata (e : Entity) (h : MetaHeap)
    (freshId : String) (now now2 : Nat) (k v : String)
    (hid : e.id ≠ "") (hver : e.version ≠ 0)
    (href : e.metadataRef < h.length) :
    (e.clone freshId now h).2 = h ∧
    (e.clone freshId now h).1.equalsE e = true ∧
    (e.clone freshId now h).1.metadataRef = e.metadataRef ∧
    ((e.clone freshId now h).1.addMetadata k v now2 h).1.version
      = e.version + 1 ∧
    e.getMetadata ((e.clone freshId now h).1.addMetadata k v now2 h).2 k
      = some v ∧
    (e.clone freshId now h).1.getMetadata (e.addMetadata k v now2 h).2 k
      = some v := by
  have h1 : (e.clone freshId now h).2 = h := by
    simp [Entity.clone, createEntity, Entity.toPlainObject]
  have h2 : (e.clone freshId now h).1.version = e.version := by
    simp [Entity.clone, createEntity, Entity.toPlainObject, natTruthy, hver]
  have h3 : (e.clone freshId now h).1.id = e.id := by
    simp [Entity.clone, createEntity, Entity.toPlainObject, strTruthy, hid]
  have h4 : (e.clone freshId now h).1.metadataRef = e.metadataRef := by
    simp [Entity.clone, createEntity, Entity.toPlainObject]
  refine ⟨h1, ?_, h4, ?_, ?_, ?_⟩
  · simp [Entity.equalsE, h2, h3]
  · simp [Entity.addMetadata, Entity.markAsUpdated, h2]
  · simp only [Entity.addMetadata, Entity.getMetadata, h4]
    rw [MetaHeap.recordAt_set h e.metadataRef _ href]
    exact MetaRecord.lookupKey_setKey _ k v
  · simp only [Entity.addMetadata, Entity.getMetadata, h4]
    rw [MetaHeap.recordAt_set h e.metadataRef _ href]
    exact MetaRecord.lookupKey_setKey _ k v

/-- Witness for C8 amended at the probe entity. -/
theorem clone_value_equal_shares_metadata_witness :
    probeEntity.id ≠ "" ∧ probeEntity.version ≠ 0 ∧
    probeEntity.metadataRef < probeHeap.length ∧
    ((probeEntity.clone "fresh" 3 probeHeap).2 = probeHeap ∧
      (probeEntity.clone "fresh" 3 probeHeap).1.equalsE probeEntity = true ∧
      (probeEntity.clone "fresh" 3 probeHeap).1.metadataRef
        = probeEntity.metadataRef ∧
      ((probeEntity.clone "fresh" 3 probeHeap).1.addMetadata "k" "v" 4
          probeHeap).1.version = probeEntity.version + 1 ∧
      probeEntity.getMetadata
        ((probeEntity.clone "fresh" 3 probeHeap).1.addMetadata "k" "v" 4
          probeHeap).2 "k" = some "v" ∧
      (probeEntity.clone "fresh" 3 probeHeap).1.getMetadata
        (probeEntity.addMetadata "k" "v" 4 probeHeap).2 "k" = some "v") :=
  ⟨by decide, by decide, by decide,
   clone_value_equal_shares_metadata probeEntity probeHeap "fresh" 3 4 "k" "v"
     (by decide) (by decide) (by decide)⟩

end TsServerless
